import Mathlib

/-!
Shallow embedding of the batch resolution engine of the
Food-Barcode-Nutrition-Sustainability-Scanner repository
(src/crud.py, src/main.py, src/schemas.py, src/database.py).

Numbers that the Python code handles as `float` are modelled as exact
rationals (ℚ); every numeric literal the claims touch (100, 1500, 1.5)
is exactly representable in both. Timestamps (`datetime.utcnow()`) are
modelled as an abstract `Nat` parameter `now`. Outbound HTTP traffic is
modelled by response values handed to the functions as inputs; a raised
Python exception is modelled as `Except.error`.
-/

namespace Scanner

/-- Nutriments subrecord (schemas.Nutriments / the dict built in
`crud.fetch_from_off`): calories, fat, sugar, sodium, each optional. -/
structure Nutriments where
  calories : Option ℚ
  fat : Option ℚ
  sugar : Option ℚ
  sodium : Option ℚ
  deriving DecidableEq, Repr

/-- Eco subrecord (schemas.EcoScore / the `eco` dict in `crud.fetch_from_off`). -/
structure EcoInfo where
  eco_score : Option ℤ
  carbon_footprint : Option ℚ
  packaging_recyclable : Bool
  deriving DecidableEq, Repr

/-- The product record dict returned by `crud.fetch_from_off` (before the
store assigns an `_id`). -/
structure ProductData where
  barcode : String
  name : String
  brand : String
  category : String
  ingredients : List String
  nutriments : Nutriments
  allergens : List String
  eco : EcoInfo
  fetched_at : Nat
  deriving DecidableEq, Repr

/-- A JSON value found under a key of the upstream `nutriments` map: either a
numeric (Python `int`/`float`) or some non-numeric value. -/
inductive NumVal where
  | num (v : ℚ)
  | nonNum
  deriving DecidableEq, Repr

/-- The fields of the OpenFoodFacts `product` object that
`crud.fetch_from_off` consumes. A missing key is `none`. -/
structure OFFProduct where
  product_name : Option String
  product_name_en : Option String
  generic_name : Option String
  generic_name_en : Option String
  brands : Option String
  categories : Option String
  ingredients : List (Option String)
  nutriments : List (String × NumVal)
  allergens_hierarchy : List String
  packaging : Option String
  serving_size : Option String
  ecoscore_score : Option ℤ
  deriving DecidableEq, Repr

/-- Parsed-or-not body of the OpenFoodFacts HTTP response: `malformed` models
a body on which `resp.json()` raises; `parsed` carries the body-level
`status` flag and the optional `product` object. -/
inductive JsonBody where
  | malformed
  | parsed (statusFlag : Option ℤ) (product : Option OFFProduct)
  deriving DecidableEq, Repr

/-- Outcome of the outbound `client.get` call in `crud.fetch_from_off`:
either the request itself fails (httpx.RequestError, timeout included) or a
response with an HTTP status code and a body arrives. -/
inductive HttpResult where
  | netErr
  | resp (status : Nat) (body : JsonBody)
  deriving DecidableEq, Repr

/-- Body of the Carbon Interface response: `malformed` models a body on which
`resp.json()` raises ValueError; `parsed` carries the optional
`data.attributes.carbon_kg` value. -/
inductive CarbonBody where
  | malformed
  | parsed (carbon_kg : Option ℚ)
  deriving DecidableEq, Repr

/-- Outcome of the outbound `client.post` call in
`crud.fetch_carbon_footprint`. -/
inductive CarbonResult where
  | netErr
  | resp (status : Nat) (body : CarbonBody)
  deriving DecidableEq, Repr

/-- Python exceptions that can escape `crud.fetch_from_off`:
httpx.RequestError from the GET, ValueError from `resp.json()`, KeyError
from `resp.json()["product"]`. -/
inductive FetchErr where
  | requestError
  | jsonDecodeError
  | keyError
  deriving DecidableEq, Repr

/-- Python truthiness-based `or` on an optional string: `None` and `""` are
falsy, anything else is taken. Models one link of the
`p.get("product_name") or ... or "Unknown Product"` chain in
`crud.fetch_from_off`. -/
def pyOr (v : Option String) (next : String) : String :=
  match v with
  | some s => if s = "" then next else s
  | none => next

/-- Python `str.strip()` with no argument: drop whitespace from both ends.
(Character-list implementation so that proofs can evaluate it.) -/
def pyStrip (s : String) : String :=
  String.mk (((s.toList.dropWhile Char.isWhitespace).reverse.dropWhile
    Char.isWhitespace).reverse)

/-- The full name-fallback chain of `crud.fetch_from_off` lines 67-74:
first truthy value among the five fields, else "Unknown Product", and
`.strip()` applied to the selected value. -/
def resolveName (p : OFFProduct) : String :=
  pyStrip (pyOr p.product_name (pyOr p.product_name_en (pyOr p.generic_name
    (pyOr p.generic_name_en (pyOr p.brands "Unknown Product")))))

/-- Lookup of a key in the upstream nutriments map, returning the value only
when it is numeric (`isinstance(v, (int, float))`). -/
def lookupNum (nt : List (String × NumVal)) (key : String) : Option ℚ :=
  match nt.lookup key with
  | some (NumVal.num v) => some v
  | _ => none

/-- The `num_field` helper of `crud.fetch_from_off`: try the `_100g`-suffixed
key, then the bare key; first numeric value wins. -/
def num_field (nt : List (String × NumVal)) (key : String) : Option ℚ :=
  match lookupNum nt (key ++ "_100g") with
  | some v => some v
  | none => lookupNum nt key

/-- Python `str.lower()`, character by character. (Character-list
implementation so that proofs can evaluate it.) -/
def pyLower (s : String) : String :=
  String.mk (s.toList.map Char.toLower)

/-- Boolean substring containment on strings (Python `kw in pack_str`). -/
def strContains (hay needle : String) : Bool :=
  let h := hay.toList
  let n := needle.toList
  (List.range (h.length + 1)).any (fun i => n.isPrefixOf (h.drop i))

/-- Packaging recyclability check of `crud.fetch_from_off` lines 85-89:
case-insensitive keyword match on the free-text packaging field. -/
def packRecyclable (packaging : Option String) : Bool :=
  let pack_str := packaging.getD ""
  strContains (pyLower pack_str) "recyclable" || strContains (pyLower pack_str) "recycle"
    || strContains (pyLower pack_str) "please recycle"

/-- Fold of decimal digit characters into a natural number. -/
def digitsToNat (l : List Char) : Nat :=
  l.foldl (fun n c => 10 * n + (c.toNat - 48)) 0

/-- The decimal fragment of Python `float(str)` that serving-size amounts
exercise: optional sign, then digits with an optional fractional part
("1", "1.5", "1.", ".5"); anything else fails. -/
def parseDecimal (s : String) : Option ℚ :=
  let cs := s.toList
  let signRest : ℚ × List Char :=
    match cs with
    | '-' :: t => (-1, t)
    | '+' :: t => (1, t)
    | _ => (1, cs)
  let sign := signRest.1
  let rest := signRest.2
  let intPart := rest.takeWhile Char.isDigit
  let rest2 := rest.dropWhile Char.isDigit
  match rest2 with
  | [] => if intPart.isEmpty then none else some (sign * (digitsToNat intPart : ℚ))
  | '.' :: frac =>
    if frac.all Char.isDigit && !(intPart.isEmpty && frac.isEmpty) then
      some (sign * ((digitsToNat intPart : ℚ) + (digitsToNat frac : ℚ) / (10 : ℚ) ^ frac.length))
    else none
  | _ => none

/-- Whitespace tokenizer: accumulates the current token (reversed) and cuts
at whitespace, dropping empty pieces. -/
def splitWSAux : List Char → List Char → List String
  | [], acc => if acc.isEmpty then [] else [String.mk acc.reverse]
  | c :: rest, acc =>
    if c.isWhitespace then
      if acc.isEmpty then splitWSAux rest []
      else String.mk acc.reverse :: splitWSAux rest []
    else splitWSAux rest (c :: acc)

/-- Python `str.split()` with no argument: split on whitespace runs,
dropping empty pieces. -/
def pySplit (s : String) : List String :=
  splitWSAux s.toList []

/-- Python `amt.replace(",", ".")`: every comma becomes a dot. -/
def commaToDot (s : String) : String :=
  String.mk (s.toList.map (fun c => if c = ',' then '.' else c))

/-- Python `unit.startswith("kg")`. -/
def startsWithKg (unit : String) : Bool :=
  "kg".toList.isPrefixOf unit.toList

/-- The grams estimate of `crud.fetch_from_off` lines 91-102: lowercase the
serving-size text, split into exactly an amount and a unit token, parse the
amount with commas normalized to dots, multiply by 1000 when the unit starts
with "kg"; any failure (including a falsy field) yields 100 grams. -/
def gramsEstimate (serving : Option String) : ℚ :=
  match serving with
  | none => 100
  | some s =>
    if s = "" then 100
    else
      match pySplit (pyLower s) with
      | [amt, unit] =>
        match parseDecimal (commaToDot amt) with
        | some v => v * (if startsWithKg unit then 1000 else 1)
        | none => 100
      | _ => 100

/-- Embedding of `crud.fetch_carbon_footprint`: given the weight (unused for
the modelled response) and the outcome of the POST, return the carbon mass or
`none`. Total function: the Python code catches httpx.RequestError and
ValueError, so no exception escapes. -/
def fetch_carbon_footprint (_grams : ℚ) (r : CarbonResult) : Option ℚ :=
  match r with
  | CarbonResult.netErr => none
  | CarbonResult.resp status body =>
    if status ≠ 201 then none
    else
      match body with
      | CarbonBody.malformed => none
      | CarbonBody.parsed ck => ck

/-- Assembly of the result dict of `crud.fetch_from_off` lines 107-128 from a
parsed product object and the carbon-call outcome. -/
def buildRecord (barcode : String) (p : OFFProduct) (c : CarbonResult) (now : Nat) :
    ProductData :=
  { barcode := barcode
    name := resolveName p
    brand := p.brands.getD ""
    category := p.categories.getD ""
    ingredients := p.ingredients.filterMap
      (fun o => o.bind (fun s => if s = "" then none else some s))
    nutriments :=
      { calories := num_field p.nutriments "energy-kcal"
        fat := num_field p.nutriments "fat"
        sugar := num_field p.nutriments "sugars"
        sodium := num_field p.nutriments "sodium" }
    allergens := p.allergens_hierarchy
    eco :=
      { eco_score := p.ecoscore_score
        carbon_footprint := fetch_carbon_footprint (gramsEstimate p.serving_size) c
        packaging_recyclable := packRecyclable p.packaging }
    fetched_at := now }

/-- Embedding of `crud.fetch_from_off`. Mirrors the short-circuit
`if resp.status_code != 200 or resp.json().get("status") != 1`: on a non-200
status `resp.json()` is never evaluated, so even a malformed body yields
`none`; on a 200 status a malformed body raises, a missing "product" key
raises KeyError, and a network failure of the GET raises — none of these is
caught inside the function. -/
def fetch_from_off (barcode : String) (r : HttpResult) (c : CarbonResult) (now : Nat) :
    Except FetchErr (Option ProductData) :=
  match r with
  | HttpResult.netErr => Except.error FetchErr.requestError
  | HttpResult.resp status body =>
    if status ≠ 200 then Except.ok none
    else
      match body with
      | JsonBody.malformed => Except.error FetchErr.jsonDecodeError
      | JsonBody.parsed flag product =>
        if flag ≠ some 1 then Except.ok none
        else
          match product with
          | none => Except.error FetchErr.keyError
          | some p => Except.ok (some (buildRecord barcode p c now))

/-- A document living in the Mongo collection: the store-assigned opaque
`_id` plus the product data fields written by the upsert. -/
structure StoredDoc where
  id : Nat
  data : ProductData
  deriving DecidableEq, Repr

/-- Embedding of `crud.get_product`: `find_one({"barcode": code})`, the first
document whose barcode matches. -/
def get_product (store : List StoredDoc) (code : String) : Option StoredDoc :=
  store.find? (fun d => d.data.barcode == code)

/-- One `UpdateOne({"barcode": ...}, {"$set": data}, upsert=True)` operation
(used by both `crud.upsert_product` and `crud.bulk_upsert_products`).
`$set` writes every top-level field of `data`; since every upserted dict
carries the same fixed field set (the shape built by `fetch_from_off`) and
`_id` is not among them, this replaces all data fields of the matched
document and keeps its `_id`; with no match a new document is inserted and
the store assigns it a fresh identifier, modelled by `freshId`. -/
def upsertOne (store : List StoredDoc) (freshId : Nat) (data : ProductData) :
    List StoredDoc :=
  match store with
  | [] => [{ id := freshId, data := data }]
  | d :: rest =>
    if d.data.barcode == data.barcode then { id := d.id, data := data } :: rest
    else d :: upsertOne rest freshId data

/-- Embedding of `crud.bulk_upsert_products`: the ordered bulk write applies
one `UpdateOne` per document, in list order; fresh identifiers are drawn
consecutively from `freshBase`. -/
def bulkUpsert (store : List StoredDoc) (freshBase : Nat) (docs : List ProductData) :
    List StoredDoc :=
  match docs with
  | [] => store
  | d :: rest => bulkUpsert (upsertOne store freshBase d) (freshBase + 1) rest

/-- Value appended to the shared `results` list by `process_one` in
`main.batch_lookup` when its item completes: a cache-hit document, a
not-found error dict `{barcode, error}`, or the `{barcode, _placeholder}`
marker together with the freshly fetched data recorded in `new_products`. -/
inductive PreEntry where
  | cachedDoc (doc : StoredDoc)
  | errEntry (barcode : String)
  | placeholder (data : ProductData)
  deriving DecidableEq, Repr

/-- An entry of the final `results` list of `main.batch_lookup`: a success
record, an error descriptor, or `missing` for the (never-reached) case where
the post-upsert re-read returns nothing and `results[idx]` is set to None. -/
inductive BatchEntry where
  | product (doc : StoredDoc)
  | errorEntry (barcode : String)
  | missing
  deriving DecidableEq, Repr

/-- Everything `main.batch_lookup` leaves behind: the metadata counters, the
results list, the store after the consolidated persistence step, and whether
the bulk upsert was issued at all. -/
structure BatchOutcome where
  requested : Nat
  fetched : Nat
  cached : Nat
  results : List BatchEntry
  storeAfter : List StoredDoc
  bulkIssued : Bool
  deriving DecidableEq, Repr

/-- The body of `process_one` for the item at input position `i`, up to its
single append to `results`: cache read against the (still unmodified) store,
then on a miss the throttled `fetch_from_off` call, whose raised exceptions
are not caught and escape the task. `http i` and `carbon i` are the outbound
responses seen by occurrence `i` (duplicated barcodes fetch independently). -/
def rawEntry (store : List StoredDoc) (http : Nat → HttpResult)
    (carbon : Nat → CarbonResult) (now : Nat) (barcodes : List String) (i : Nat) :
    Except FetchErr PreEntry :=
  let code := barcodes.getD i ""
  match get_product store code with
  | some doc => Except.ok (PreEntry.cachedDoc doc)
  | none =>
    match fetch_from_off code (http i) (carbon i) now with
    | Except.error e => Except.error e
    | Except.ok none => Except.ok (PreEntry.errEntry code)
    | Except.ok (some d) => Except.ok (PreEntry.placeholder d)

/-- The entry of item `i` under the assumption that no task raised; used to
describe the contents of the shared `results` list. -/
def preOf (store : List StoredDoc) (http : Nat → HttpResult)
    (carbon : Nat → CarbonResult) (now : Nat) (barcodes : List String) (i : Nat) :
    PreEntry :=
  match rawEntry store http carbon now barcodes i with
  | Except.ok p => p
  | Except.error _ => PreEntry.errEntry (barcodes.getD i "")

/-- Collapse the per-task outcomes, taken in completion order, the way
`asyncio.gather` does: the first raised exception propagates to the caller,
otherwise the appended entries are collected in that order. -/
def collectEntries : List (Except FetchErr PreEntry) → Except FetchErr (List PreEntry)
  | [] => Except.ok []
  | Except.error e :: _ => Except.error e
  | Except.ok a :: rest =>
    match collectEntries rest with
    | Except.error e => Except.error e
    | Except.ok l => Except.ok (a :: l)

/-- True on the `results` entries of items that resolved from the cache. -/
def isCachedDoc : PreEntry → Bool
  | PreEntry.cachedDoc _ => true
  | _ => false

/-- True on the `results` entries of items that completed a successful
upstream fetch (the `_placeholder` dicts). -/
def isPlaceholder : PreEntry → Bool
  | PreEntry.placeholder _ => true
  | _ => false

/-- True on final result entries that are success records. -/
def isProductEntry : BatchEntry → Bool
  | BatchEntry.product _ => true
  | _ => false

/-- The placeholder-replacement pass of `main.batch_lookup` lines 137-142:
cached documents and error dicts pass through; each placeholder is replaced
by re-reading its barcode from the post-upsert store. -/
def finalizeEntry (store2 : List StoredDoc) : PreEntry → BatchEntry
  | PreEntry.cachedDoc doc => BatchEntry.product doc
  | PreEntry.errEntry b => BatchEntry.errorEntry b
  | PreEntry.placeholder d =>
    match get_product store2 d.barcode with
    | some doc => BatchEntry.product doc
    | none => BatchEntry.missing

/-- The `new_products` list accumulated by the tasks, in completion order. -/
def newProductsOf (pre : List PreEntry) : List ProductData :=
  pre.filterMap (fun e => match e with | PreEntry.placeholder d => some d | _ => none)

/-- The store after the guarded consolidated persistence step of
`main.batch_lookup` lines 135-136: the bulk upsert is issued only when at
least one new product was fetched. -/
def storeAfterOf (store : List StoredDoc) (freshBase : Nat) (pre : List PreEntry) :
    List StoredDoc :=
  if (newProductsOf pre).isEmpty then store
  else bulkUpsert store freshBase (newProductsOf pre)

/-- Embedding of `main.batch_lookup`. `order` is the completion order of the
`process_one` tasks spawned by `asyncio.gather` (a permutation of the input
positions chosen by the scheduler): the shared `results` and `new_products`
lists receive their appends in that order. After all tasks join, the new
products are bulk-upserted (only when there are any) and placeholders are
replaced by re-reads; the counters are the totals accumulated by the
`nonlocal fetched, cached` increments. -/
def batch_lookup (store : List StoredDoc) (http : Nat → HttpResult)
    (carbon : Nat → CarbonResult) (now : Nat) (barcodes : List String)
    (order : List Nat) (freshBase : Nat) : Except FetchErr BatchOutcome :=
  match collectEntries (order.map (rawEntry store http carbon now barcodes)) with
  | Except.error e => Except.error e
  | Except.ok pre =>
    Except.ok
      { requested := barcodes.length
        fetched := pre.countP isPlaceholder
        cached := pre.countP isCachedDoc
        results := pre.map (finalizeEntry (storeAfterOf store freshBase pre))
        storeAfter := storeAfterOf store freshBase pre
        bulkIssued := !(newProductsOf pre).isEmpty }

/-- Phase of one `process_one` task with respect to the batch-scoped
`asyncio.Semaphore(5)` of `main.batch_lookup`: not yet scheduled, returned
from the cache read with a hit (no semaphore interaction), waiting on
`async with semaphore`, holding a permit while the upstream fetch is in
flight, or finished. -/
inductive ItemPhase where
  | pending
  | waiting
  | fetching
  | done
  deriving DecidableEq, Repr

/-- State of one batch invocation: the semaphore's free permit count and the
phase of each item task. Cache reads and the persistence phase touch no
semaphore state, so only the fetch phase appears here. -/
structure SemState where
  permits : Nat
  phases : List ItemPhase
  deriving DecidableEq, Repr

/-- Initial state of a batch of `n` items: `asyncio.Semaphore(5)` holds 5
permits and every task is pending. -/
def initSem (n : Nat) : SemState :=
  { permits := 5, phases := List.replicate n ItemPhase.pending }

/-- One scheduler step of the batch's cooperative tasks. A cache hit
finishes an item without ever touching the semaphore; a cache miss moves it
to the semaphore queue; entering `async with semaphore` requires a free
permit and takes it; leaving the block (fetch finished, found or not, or
unwound by an exception) returns the permit. -/
inductive SemStep : SemState → SemState → Prop where
  | cacheHit (s : SemState) (i : Nat)
      (h : s.phases.get? i = some ItemPhase.pending) :
      SemStep s { permits := s.permits, phases := s.phases.set i ItemPhase.done }
  | cacheMiss (s : SemState) (i : Nat)
      (h : s.phases.get? i = some ItemPhase.pending) :
      SemStep s { permits := s.permits, phases := s.phases.set i ItemPhase.waiting }
  | acquire (s : SemState) (i : Nat)
      (h : s.phases.get? i = some ItemPhase.waiting) (hp : 0 < s.permits) :
      SemStep s { permits := s.permits - 1, phases := s.phases.set i ItemPhase.fetching }
  | release (s : SemState) (i : Nat)
      (h : s.phases.get? i = some ItemPhase.fetching) :
      SemStep s { permits := s.permits + 1, phases := s.phases.set i ItemPhase.done }

/-- States a batch of `n` items can reach through any interleaving. -/
def SemReachable (n : Nat) (s : SemState) : Prop :=
  Relation.ReflTransGen SemStep (initSem n) s

/-- Number of upstream fetch calls currently in flight. -/
def inFlight (s : SemState) : Nat :=
  s.phases.countP (fun p => p == ItemPhase.fetching)

/-! Sample values used by concrete evaluations. -/

/-- An upstream product object with every consumed field missing. -/
def emptyOFF : OFFProduct :=
  { product_name := none, product_name_en := none, generic_name := none,
    generic_name_en := none, brands := none, categories := none, ingredients := [],
    nutriments := [], allergens_hierarchy := [], packaging := none,
    serving_size := none, ecoscore_score := none }

/-- A found upstream payload for barcode "A". -/
def pA : OFFProduct := { emptyOFF with product_name := some "MilkA" }

/-- A product record for barcode "B" as it would sit in the store. -/
def dB : ProductData :=
  { barcode := "B", name := "NB", brand := "", category := "", ingredients := [],
    nutriments := { calories := none, fat := none, sugar := none, sodium := none },
    allergens := [],
    eco := { eco_score := none, carbon_footprint := none, packaging_recyclable := false },
    fetched_at := 0 }

/-! ### Claim C2 -/

/-- C2: the claim states that `fetch_from_off` returns `None` (rather than
raising) for any network or timeout failure of the outbound call. The code
has no try/except around the GET, so httpx.RequestError propagates: at the
concrete input of a network failure the function raises instead of
returning `None`. -/
theorem c2_counterexample :
    fetch_from_off "1" HttpResult.netErr CarbonResult.netErr 0 =
        Except.error FetchErr.requestError ∧
      Except.error FetchErr.requestError ≠
        (Except.ok none : Except FetchErr (Option ProductData)) := by
  exact ⟨rfl, by simp⟩

/-- C2 amended: `fetch_from_off` returns `None` for a non-200 HTTP status
(whatever the body, since `resp.json()` is short-circuited away) and for a
parsed 200 payload whose status flag is not 1; but a malformed JSON body on
a 200 response raises a JSON decode error and a network/timeout failure
raises a request error — neither is converted to `None`. -/
theorem c2_amended (b : String) (c : CarbonResult) (now : Nat) :
    (∀ status body, status ≠ 200 →
        fetch_from_off b (HttpResult.resp status body) c now = Except.ok none) ∧
    (∀ flag product, flag ≠ some 1 →
        fetch_from_off b (HttpResult.resp 200 (JsonBody.parsed flag product)) c now =
          Except.ok none) ∧
    fetch_from_off b (HttpResult.resp 200 JsonBody.malformed) c now =
      Except.error FetchErr.jsonDecodeError ∧
    fetch_from_off b HttpResult.netErr c now = Except.error FetchErr.requestError := by
  refine ⟨?_, ?_, rfl, rfl⟩
  · intro status body hs
    simp [fetch_from_off, hs]
  · intro flag product hf
    simp [fetch_from_off, hf]

/-- Witness for C2's amended theorem at concrete inputs. -/
theorem c2_amended_witness :
    fetch_from_off "1" (HttpResult.resp 404 JsonBody.malformed) CarbonResult.netErr 0 =
        Except.ok none ∧
      fetch_from_off "1" (HttpResult.resp 200 (JsonBody.parsed (some 0) none))
          CarbonResult.netErr 0 =
        Except.ok none := by
  have h := c2_amended "1" CarbonResult.netErr 0
  exact ⟨h.1 404 JsonBody.malformed (by decide), h.2.1 (some 0) none (by decide)⟩

/-! ### Claim C6 -/

/-- C6: `fetch_carbon_footprint` degrades to `none` on every non-201
response, network failure, and malformed payload (the code catches
httpx.RequestError and ValueError, so it never raises); and inside
`fetch_from_off` an absent carbon estimate leaves only the
`carbon_footprint` field absent — the record still resolves and every other
field is the same as with any other carbon outcome. -/
theorem c6_enrichment (g : ℚ) (p : OFFProduct) (b : String) (now : Nat)
    (c c2 : CarbonResult)
    (hc : fetch_carbon_footprint (gramsEstimate p.serving_size) c = none) :
    fetch_carbon_footprint g CarbonResult.netErr = none ∧
    (∀ status body, status ≠ 201 →
        fetch_carbon_footprint g (CarbonResult.resp status body) = none) ∧
    (∀ status, fetch_carbon_footprint g (CarbonResult.resp status CarbonBody.malformed) = none) ∧
    fetch_from_off b (HttpResult.resp 200 (JsonBody.parsed (some 1) (some p))) c now =
      Except.ok (some (buildRecord b p c now)) ∧
    (buildRecord b p c now).eco.carbon_footprint = none ∧
    (buildRecord b p c now).barcode = (buildRecord b p c2 now).barcode ∧
    (buildRecord b p c now).name = (buildRecord b p c2 now).name ∧
    (buildRecord b p c now).brand = (buildRecord b p c2 now).brand ∧
    (buildRecord b p c now).category = (buildRecord b p c2 now).category ∧
    (buildRecord b p c now).ingredients = (buildRecord b p c2 now).ingredients ∧
    (buildRecord b p c now).nutriments = (buildRecord b p c2 now).nutriments ∧
    (buildRecord b p c now).allergens = (buildRecord b p c2 now).allergens ∧
    (buildRecord b p c now).eco.eco_score = (buildRecord b p c2 now).eco.eco_score ∧
    (buildRecord b p c now).eco.packaging_recyclable =
      (buildRecord b p c2 now).eco.packaging_recyclable ∧
    (buildRecord b p c now).fetched_at = (buildRecord b p c2 now).fetched_at := by
  refine ⟨rfl, ?_, ?_, rfl, hc, rfl, rfl, rfl, rfl, rfl, rfl, rfl, rfl, rfl, rfl⟩
  · intro status body hs
    simp [fetch_carbon_footprint, hs]
  · intro status
    by_cases hs : status = 201
    · subst hs; rfl
    · simp [fetch_carbon_footprint, hs]

/-- Witness for C6 at concrete inputs. -/
theorem c6_enrichment_witness :
    fetch_carbon_footprint 100 CarbonResult.netErr = none ∧
    fetch_carbon_footprint 100 (CarbonResult.resp 404 (CarbonBody.parsed (some 1))) = none ∧
    fetch_carbon_footprint 100 (CarbonResult.resp 201 CarbonBody.malformed) = none ∧
    fetch_from_off "1" (HttpResult.resp 200 (JsonBody.parsed (some 1) (some emptyOFF)))
        CarbonResult.netErr 0 =
      Except.ok (some (buildRecord "1" emptyOFF CarbonResult.netErr 0)) ∧
    (buildRecord "1" emptyOFF CarbonResult.netErr 0).eco.carbon_footprint = none := by
  have h := c6_enrichment 100 emptyOFF "1" 0 CarbonResult.netErr
    (CarbonResult.resp 201 (CarbonBody.parsed (some 2))) rfl
  exact ⟨h.1, h.2.1 404 _ (by decide), h.2.2.1 201, h.2.2.2.1, h.2.2.2.2.1⟩

/-! ### Claim C7 -/

/-- The five name fields in the priority order of `crud.fetch_from_off`. -/
def nameFields (p : OFFProduct) : List (Option String) :=
  [p.product_name, p.product_name_en, p.generic_name, p.generic_name_en, p.brands]

/-- The Python `or` chain over a list of optional string fields with a final
literal default. -/
def pyOrChain : List (Option String) → String → String
  | [], d => d
  | v :: rest, d => pyOr v (pyOrChain rest d)

/-- Modelled from the spec sentence: take the first non-empty trimmed value
among the fields, in priority order, else the fallback. -/
def specNameChain : List (Option String) → String → String
  | [], d => d
  | none :: rest, d => specNameChain rest d
  | some s :: rest, d => if pyStrip s = "" then specNameChain rest d else pyStrip s

/-- Name resolution exactly as the spec words it. -/
def specResolveName (p : OFFProduct) : String :=
  specNameChain (nameFields p) "Unknown Product"

/-- A payload whose primary name is whitespace-only while the generic name
is a real one. -/
def pWS : OFFProduct :=
  { emptyOFF with product_name := some " ", generic_name := some "Oat Milk" }

/-- When no field is a non-empty-but-all-whitespace string, the code's
truthiness-then-strip chain agrees with the spec's trim-then-select chain. -/
theorem pyOrChain_trim_eq (l : List (Option String)) (d : String)
    (h : ∀ s, some s ∈ l → s ≠ "" → pyStrip s ≠ "") :
    pyStrip (pyOrChain l d) = specNameChain l (pyStrip d) := by
  induction l with
  | nil => rfl
  | cons o rest ih =>
    have hrest : ∀ s, some s ∈ rest → s ≠ "" → pyStrip s ≠ "" :=
      fun s hs => h s (List.mem_cons_of_mem _ hs)
    match o with
    | none => exact ih hrest
    | some s =>
      by_cases hse : s = ""
      · subst hse
        have hps : pyStrip "" = "" := by decide
        simpa [pyOrChain, pyOr, specNameChain, hps] using ih hrest
      · have ht : pyStrip s ≠ "" := h s (List.mem_cons_self _ _) hse
        simp [pyOrChain, pyOr, specNameChain, hse, ht]

/-- The spec-side chain never yields the empty string when the default is
non-empty. -/
theorem specNameChain_ne_empty (l : List (Option String)) (d : String) (hd : d ≠ "") :
    specNameChain l d ≠ "" := by
  induction l with
  | nil => exact hd
  | cons o rest ih =>
    match o with
    | none => exact ih
    | some s =>
      by_cases ht : pyStrip s = ""
      · simpa [specNameChain, ht] using ih
      · simp only [specNameChain, if_neg ht]
        exact ht

/-- C7: the claim states the resolved name is the first non-empty trimmed
value of the chain and in particular never the empty string. The code
selects by Python truthiness first and strips only afterwards, so a
whitespace-only primary name is selected (it is truthy) and then stripped
to the empty string — even though a later field holds "Oat Milk". -/
theorem c7_counterexample :
    resolveName pWS = "" ∧
      fetch_from_off "1" (HttpResult.resp 200 (JsonBody.parsed (some 1) (some pWS)))
          CarbonResult.netErr 0 =
        Except.ok (some (buildRecord "1" pWS CarbonResult.netErr 0)) ∧
      (buildRecord "1" pWS CarbonResult.netErr 0).name = "" := by
  refine ⟨by decide, rfl, by decide⟩

/-- C7 amended: on every payload none of whose name fields is a non-empty
string of pure whitespace, the code's resolution does pick the first
non-empty trimmed value in the spec's priority order, with fallback
"Unknown Product", and the resulting name is never empty. (The
counterexample forces exactly this exclusion: a whitespace-only field is
truthy, gets selected, and strips to the empty string.) -/
theorem c7_name_amended (p : OFFProduct)
    (h : ∀ s, some s ∈ nameFields p → s ≠ "" → pyStrip s ≠ "") :
    resolveName p = specResolveName p ∧ resolveName p ≠ "" := by
  have he : resolveName p = pyStrip (pyOrChain (nameFields p) "Unknown Product") := rfl
  have htrim : pyStrip "Unknown Product" = "Unknown Product" := by decide
  have h1 := pyOrChain_trim_eq (nameFields p) "Unknown Product" h
  rw [htrim] at h1
  constructor
  · rw [he, h1]; rfl
  · rw [he, h1]
    exact specNameChain_ne_empty _ _ (by decide)

/-- Witness for C7's amended theorem: payload whose generic name is
" Oat Milk " (others absent) resolves to "Oat Milk". -/
theorem c7_name_amended_witness :
    resolveName { emptyOFF with generic_name := some " Oat Milk " } =
        specResolveName { emptyOFF with generic_name := some " Oat Milk " } ∧
      resolveName { emptyOFF with generic_name := some " Oat Milk " } ≠ "" := by
  refine c7_name_amended { emptyOFF with generic_name := some " Oat Milk " } ?_
  intro s hs hne
  simp only [nameFields, emptyOFF] at hs
  simp at hs
  subst hs
  decide

/-! ### Claim C8 -/

/-- C8: the weight estimate parses the serving-size text as amount-then-unit
with comma decimals normalized to dot and a "kg"-initial unit scaling by
1000; a missing field, a token count other than two, or an unparseable
amount all default to 100 grams (the function is total, so nothing is
raised); in particular "1,5 kg" gives 1500, absence gives 100, and "abc"
gives 100. -/
theorem c8_grams_estimate :
    gramsEstimate none = 100 ∧
    gramsEstimate (some "1,5 kg") = 1500 ∧
    gramsEstimate (some "abc") = 100 ∧
    (∀ s : String,
      (match pySplit (pyLower s) with
        | [amt, _] => parseDecimal (commaToDot amt) = none
        | _ => True) →
      gramsEstimate (some s) = 100) ∧
    (∀ (s amt unit : String) (v : ℚ), pySplit (pyLower s) = [amt, unit] →
      parseDecimal (commaToDot amt) = some v →
      startsWithKg unit = true →
      gramsEstimate (some s) = v * 1000) := by
  refine ⟨rfl, ?_, rfl, ?_, ?_⟩
  · have hred : gramsEstimate (some "1,5 kg") =
        ((1 : ℚ) * ((digitsToNat ['1'] : ℚ) + (digitsToNat ['5'] : ℚ) / (10 : ℚ) ^ 1))
          * 1000 := rfl
    have d1 : digitsToNat ['1'] = 1 := by decide
    have d5 : digitsToNat ['5'] = 5 := by decide
    rw [hred, d1, d5]
    norm_num
  · intro s hm
    by_cases hs : s = ""
    · simp [gramsEstimate, hs]
    · rcases hsp : pySplit (pyLower s) with _ | ⟨amt, rest⟩
      · simp [gramsEstimate, hs, hsp]
      · rcases rest with _ | ⟨unit, rest2⟩
        · simp [gramsEstimate, hs, hsp]
        · rcases rest2 with _ | ⟨x, rest3⟩
          · rw [hsp] at hm
            simp only [] at hm
            simp [gramsEstimate, hs, hsp, hm]
          · simp [gramsEstimate, hs, hsp]
  · intro s amt unit v hsp hv hkg
    by_cases hs : s = ""
    · rw [hs] at hsp
      have hnil : pySplit (pyLower "") = [] := rfl
      rw [hnil] at hsp
      exact absurd hsp (by simp)
    · simp [gramsEstimate, hs, hsp, hv, hkg]

/-- Witness for C8's universally quantified parts at concrete inputs. -/
theorem c8_grams_estimate_witness :
    gramsEstimate (some "x y") = 100 ∧
      gramsEstimate (some "1,5 kg") =
        ((1 : ℚ) * ((digitsToNat ['1'] : ℚ) + (digitsToNat ['5'] : ℚ) / (10 : ℚ) ^ 1))
          * 1000 := by
  have h := c8_grams_estimate
  exact ⟨h.2.2.2.1 "x y" (show parseDecimal (commaToDot "x") = none from rfl),
    h.2.2.2.2 "1,5 kg" "1,5" "kg"
      ((1 : ℚ) * ((digitsToNat ['1'] : ℚ) + (digitsToNat ['5'] : ℚ) / (10 : ℚ) ^ 1))
      (by decide) rfl (by decide)⟩

/-! ### Claim C9 -/

/-- At most one live document per barcode: all stored barcodes distinct. -/
def barcodesDistinct (store : List StoredDoc) : Prop :=
  store.Pairwise (fun a b => a.data.barcode ≠ b.data.barcode)

/-- Every document of an upserted store either carries the upserted barcode
or a barcode already present before. -/
theorem upsertOne_mem_barcode (store : List StoredDoc) (f : Nat) (data : ProductData) :
    ∀ b ∈ upsertOne store f data,
      b.data.barcode = data.barcode ∨ ∃ a ∈ store, b.data.barcode = a.data.barcode := by
  induction store with
  | nil =>
    intro b hb
    simp only [upsertOne, List.mem_singleton] at hb
    subst hb
    exact Or.inl rfl
  | cons d rest ih =>
    intro b hb
    by_cases hc : d.data.barcode = data.barcode
    · simp only [upsertOne, beq_iff_eq, if_pos hc, List.mem_cons] at hb
      rcases hb with hb | hb
      · subst hb; exact Or.inl rfl
      · exact Or.inr ⟨b, List.mem_cons_of_mem _ hb, rfl⟩
    · simp only [upsertOne, beq_iff_eq, if_neg hc, List.mem_cons] at hb
      rcases hb with hb | hb
      · subst hb; exact Or.inr ⟨b, List.mem_cons_self _ _, rfl⟩
      · rcases ih b hb with h1 | ⟨a, ha, h2⟩
        · exact Or.inl h1
        · exact Or.inr ⟨a, List.mem_cons_of_mem _ ha, h2⟩

/-- C9: upserting a record whose barcode already exists in a store that
holds at most one document per barcode replaces the whole data payload of
that document (all fields at once, no merge), keeps its store-assigned
identifier, and preserves the at-most-one-per-barcode invariant. -/
theorem c9_upsert_replaces (store : List StoredDoc) (freshId : Nat)
    (data : ProductData) (d0 : StoredDoc) (hd : barcodesDistinct store)
    (hmem : d0 ∈ store) (hb : d0.data.barcode = data.barcode) :
    get_product (upsertOne store freshId data) data.barcode =
        some { id := d0.id, data := data } ∧
      barcodesDistinct (upsertOne store freshId data) := by
  induction store with
  | nil => cases hmem
  | cons d rest ih =>
    rcases List.pairwise_cons.mp hd with ⟨hdrel, hdtail⟩
    rcases List.mem_cons.mp hmem with h0 | h0
    · subst h0
      rw [upsertOne, if_pos (beq_iff_eq.mpr hb)]
      constructor
      · rw [get_product, List.find?_cons_of_pos _ (by simp)]
      · exact List.pairwise_cons.mpr ⟨fun b hb2 => hb ▸ hdrel b hb2, hdtail⟩
    · have hne : d.data.barcode ≠ data.barcode := by
        intro he
        exact hdrel d0 h0 (he.trans hb.symm)
      have htail := ih hdtail h0
      rw [upsertOne, if_neg (by simpa using hne)]
      constructor
      · rw [get_product, List.find?_cons_of_neg _ (by simpa using hne)]
        exact htail.1
      · refine List.pairwise_cons.mpr ⟨fun b hb2 => ?_, htail.2⟩
        rcases upsertOne_mem_barcode rest freshId data b hb2 with h1 | ⟨a, ha, h2⟩
        · rw [h1]; exact hne
        · rw [h2]; exact hdrel a ha

/-- Witness for C9: replacing the stored record of barcode "B" keeps its
identifier 7 while all data fields become the new record. -/
theorem c9_upsert_replaces_witness :
    get_product (upsertOne [{ id := 7, data := dB }] 9 { dB with name := "NBnew" })
        ({ dB with name := "NBnew" } : ProductData).barcode =
      some { id := 7, data := { dB with name := "NBnew" } } ∧
    barcodesDistinct (upsertOne [{ id := 7, data := dB }] 9 { dB with name := "NBnew" }) :=
  c9_upsert_replaces [{ id := 7, data := dB }] 9 { dB with name := "NBnew" }
    { id := 7, data := dB } (by simp [barcodesDistinct]) (by simp) rfl

/-! ### Claim C5 -/

/-- Setting position `i` (known to hold `b`) to `a` changes a count by the
swap of the two indicator values. -/
theorem countP_set_eq (l : List ItemPhase) (i : Nat) (b a : ItemPhase)
    (p : ItemPhase → Bool) (h : l.get? i = some b) :
    (l.set i a).countP p + (if p b then 1 else 0) =
      l.countP p + (if p a then 1 else 0) := by
  induction l generalizing i with
  | nil => simp at h
  | cons x t ih =>
    cases i with
    | zero =>
      rw [List.get?_cons_zero] at h
      injection h with h
      subst h
      rw [List.set_cons_zero, List.countP_cons, List.countP_cons]
      omega
    | succ j =>
      rw [List.get?_cons_succ] at h
      have hih := ih j h
      rw [List.set_cons_succ, List.countP_cons, List.countP_cons]
      omega

/-- No fetch is in flight before the batch starts. -/
theorem countP_replicate_pending (n : Nat) :
    (List.replicate n ItemPhase.pending).countP (fun q => q == ItemPhase.fetching) = 0 := by
  induction n with
  | zero => rfl
  | succ m ih => simp [List.replicate_succ, List.countP_cons, ih]

/-- Semaphore accounting invariant: free permits plus in-flight fetches
always total the initial 5 permits. -/
theorem sem_invariant (n : Nat) (s : SemState) (h : SemReachable n s) :
    s.permits + inFlight s = 5 := by
  induction h with
  | refl => simp [initSem, inFlight, countP_replicate_pending]
  | @tail b c hr hstep ih =>
    cases hstep with
    | cacheHit i hi =>
      have hc := countP_set_eq b.phases i _ ItemPhase.done
        (fun q => q == ItemPhase.fetching) hi
      simp only [inFlight] at ih ⊢
      simp at hc
      omega
    | cacheMiss i hi =>
      have hc := countP_set_eq b.phases i _ ItemPhase.waiting
        (fun q => q == ItemPhase.fetching) hi
      simp only [inFlight] at ih ⊢
      simp at hc
      omega
    | acquire i hi hp =>
      have hc := countP_set_eq b.phases i _ ItemPhase.fetching
        (fun q => q == ItemPhase.fetching) hi
      simp only [inFlight] at ih ⊢
      simp at hc
      omega
    | release i hi =>
      have hc := countP_set_eq b.phases i _ ItemPhase.done
        (fun q => q == ItemPhase.fetching) hi
      simp only [inFlight] at ih ⊢
      simp at hc
      omega

/-- C5: in every state a batch invocation can reach — whatever the number of
items and the interleaving, in particular for more than 5 cache-missing
barcodes — at most 5 upstream fetches are in flight at once. (Cache reads
and the persistence phase appear in the step relation without any permit
condition: only `acquire` consults the semaphore.) -/
theorem c5_fetch_concurrency_bound (n : Nat) (s : SemState) (h : SemReachable n s) :
    inFlight s ≤ 5 := by
  have := sem_invariant n s h
  omega

/-- Witness for C5: a 6-item batch where item 0 missed the cache and entered
the fetch phase. -/
theorem c5_fetch_concurrency_bound_witness :
    inFlight
      { permits := 4,
        phases := [ItemPhase.fetching, ItemPhase.pending, ItemPhase.pending,
          ItemPhase.pending, ItemPhase.pending, ItemPhase.pending] } ≤ 5 := by
  refine c5_fetch_concurrency_bound 6 _ ?_
  exact Relation.ReflTransGen.tail
    (Relation.ReflTransGen.tail Relation.ReflTransGen.refl
      (SemStep.cacheMiss (initSem 6) 0 rfl))
    (SemStep.acquire _ 0 rfl (by decide))

/-! ### Batch lemmas shared by the claims about `batch_lookup` -/

/-- Barcode carried by a final result entry, if any. -/
def entryBarcodeOf : BatchEntry → Option String
  | BatchEntry.product doc => some doc.data.barcode
  | BatchEntry.errorEntry b => some b
  | BatchEntry.missing => none

/-- True when a task finished without raising. -/
def isOkEntry : Except FetchErr PreEntry → Bool
  | Except.ok _ => true
  | Except.error _ => false

/-- True when input position `i` resolves from the cache. -/
def cacheHitAt (store : List StoredDoc) (barcodes : List String) (i : Nat) : Bool :=
  (get_product store (barcodes.getD i "")).isSome

/-- True when input position `i` misses the cache and its upstream fetch
completes successfully. -/
def fetchSuccessAt (store : List StoredDoc) (http : Nat → HttpResult)
    (carbon : Nat → CarbonResult) (now : Nat) (barcodes : List String) (i : Nat) : Bool :=
  !cacheHitAt store barcodes i &&
    (match fetch_from_off (barcodes.getD i "") (http i) (carbon i) now with
     | Except.ok (some _) => true
     | _ => false)

/-- A successful collection of task outcomes is exactly a list of `ok`s. -/
theorem collectEntries_ok (es : List (Except FetchErr PreEntry)) (ps : List PreEntry)
    (h : collectEntries es = Except.ok ps) : es = ps.map Except.ok := by
  induction es generalizing ps with
  | nil =>
    rw [collectEntries] at h
    injection h with h
    subst h
    rfl
  | cons e rest ih =>
    cases e with
    | error ee => rw [collectEntries] at h; cases h
    | ok a =>
      rw [collectEntries] at h
      cases hr : collectEntries rest with
      | error ee => rw [hr] at h; cases h
      | ok l =>
        rw [hr] at h
        injection h with h
        subst h
        simp [ih l hr]

/-- Recover the per-item entries from a successful collection. -/
theorem map_ok_preOf (store : List StoredDoc) (http : Nat → HttpResult)
    (carbon : Nat → CarbonResult) (now : Nat) (barcodes : List String)
    (order : List Nat) (pre : List PreEntry)
    (h : order.map (rawEntry store http carbon now barcodes) = pre.map Except.ok) :
    pre = order.map (preOf store http carbon now barcodes) := by
  induction order generalizing pre with
  | nil =>
    cases pre with
    | nil => rfl
    | cons a l => simp at h
  | cons i rest ih =>
    cases pre with
    | nil => simp at h
    | cons q qs =>
      simp only [List.map_cons, List.cons.injEq] at h
      obtain ⟨h1, h2⟩ := h
      rw [List.map_cons, ih qs h2]
      have hq : preOf store http carbon now barcodes i = q := by
        rw [preOf, h1]
      rw [hq]

/-- When no task raises, `asyncio.gather` returns all appended entries. -/
theorem collectEntries_map_ok (store : List StoredDoc) (http : Nat → HttpResult)
    (carbon : Nat → CarbonResult) (now : Nat) (barcodes : List String)
    (order : List Nat)
    (h : ∀ i ∈ order, isOkEntry (rawEntry store http carbon now barcodes i) = true) :
    collectEntries (order.map (rawEntry store http carbon now barcodes)) =
      Except.ok (order.map (preOf store http carbon now barcodes)) := by
  induction order with
  | nil => rfl
  | cons i rest ih =>
    have hi := h i (List.mem_cons_self _ _)
    have hrest := ih (fun j hj => h j (List.mem_cons_of_mem _ hj))
    rw [List.map_cons, List.map_cons]
    cases hr : rawEntry store http carbon now barcodes i with
    | error e => rw [hr] at hi; simp [isOkEntry] at hi
    | ok p =>
      rw [collectEntries, hrest]
      have hq : preOf store http carbon now barcodes i = p := by
        rw [preOf, hr]
      rw [hq]

/-- After upserting a record its barcode is present in the store. -/
theorem get_product_upsertOne_self (store : List StoredDoc) (f : Nat) (d : ProductData) :
    (get_product (upsertOne store f d) d.barcode).isSome = true := by
  induction store with
  | nil =>
    rw [upsertOne, get_product, List.find?_cons_of_pos _ (by simp)]
    rfl
  | cons x rest ih =>
    by_cases hc : x.data.barcode = d.barcode
    · rw [upsertOne, if_pos (beq_iff_eq.mpr hc)]
      rw [get_product, List.find?_cons_of_pos _ (by simp)]
      rfl
    · rw [upsertOne, if_neg (by simpa using hc)]
      rw [get_product, List.find?_cons_of_neg _ (by simpa using hc)]
      exact ih

/-- Upserting never removes a barcode from the store. -/
theorem get_product_upsertOne_mono (store : List StoredDoc) (f : Nat) (d : ProductData)
    (c : String) (h : (get_product store c).isSome = true) :
    (get_product (upsertOne store f d) c).isSome = true := by
  induction store with
  | nil => simp [get_product] at h
  | cons x rest ih =>
    by_cases hc : x.data.barcode = d.barcode
    · rw [upsertOne, if_pos (beq_iff_eq.mpr hc)]
      by_cases hdc : d.barcode = c
      · rw [get_product, List.find?_cons_of_pos _ (by simpa using hdc)]
        rfl
      · rw [get_product, List.find?_cons_of_neg _ (by simpa using hdc)]
        rw [get_product] at h
        have hxc : ¬x.data.barcode = c := fun he => hdc (hc ▸ he)
        rw [List.find?_cons_of_neg _ (by simpa using hxc)] at h
        exact h
    · rw [upsertOne, if_neg (by simpa using hc)]
      by_cases hxc : x.data.barcode = c
      · rw [get_product, List.find?_cons_of_pos _ (by simpa using hxc)]
        rfl
      · rw [get_product, List.find?_cons_of_neg _ (by simpa using hxc)]
        rw [get_product, List.find?_cons_of_neg _ (by simpa using hxc)] at h
        exact ih h

/-- The bulk write never removes a barcode from the store. -/
theorem get_product_bulkUpsert_mono (docs : List ProductData) :
    ∀ (store : List StoredDoc) (base : Nat) (c : String),
      (get_product store c).isSome = true →
      (get_product (bulkUpsert store base docs) c).isSome = true := by
  induction docs with
  | nil => intro store base c h; exact h
  | cons d rest ih =>
    intro store base c h
    exact ih _ _ _ (get_product_upsertOne_mono store base d c h)

/-- Every bulk-upserted record is present afterwards. -/
theorem get_product_bulkUpsert_mem (docs : List ProductData) :
    ∀ (store : List StoredDoc) (base : Nat) (d : ProductData), d ∈ docs →
      (get_product (bulkUpsert store base docs) d.barcode).isSome = true := by
  induction docs with
  | nil => intro _ _ _ hd; cases hd
  | cons x rest ih =>
    intro store base d hd
    rcases List.mem_cons.mp hd with h0 | h0
    · subst h0
      exact get_product_bulkUpsert_mono rest _ _ _ (get_product_upsertOne_self store base d)
    · exact ih (upsertOne store base x) (base + 1) d h0

/-- Cache hits and successful fetches are disjoint entry kinds, so their
counts add. -/
theorem countP_cached_add_placeholder (pre : List PreEntry) :
    pre.countP (fun e => isCachedDoc e || isPlaceholder e) =
      pre.countP isCachedDoc + pre.countP isPlaceholder := by
  induction pre with
  | nil => rfl
  | cons e rest ih =>
    rw [List.countP_cons, List.countP_cons, List.countP_cons, ih]
    cases e <;> simp [isCachedDoc, isPlaceholder] <;> omega

/-- An item's entry is a cache-hit document exactly when its position hits
the cache. -/
theorem isCachedDoc_preOf (store : List StoredDoc) (http : Nat → HttpResult)
    (carbon : Nat → CarbonResult) (now : Nat) (barcodes : List String) (i : Nat) :
    isCachedDoc (preOf store http carbon now barcodes i) = cacheHitAt store barcodes i := by
  rw [preOf, rawEntry, cacheHitAt]
  cases hg : get_product store (barcodes.getD i "") with
  | some doc => simp [isCachedDoc]
  | none =>
    cases hf : fetch_from_off (barcodes.getD i "") (http i) (carbon i) now with
    | error e => simp [isCachedDoc]
    | ok o => cases o <;> simp [isCachedDoc, isPlaceholder]

/-- An item's entry is a placeholder exactly when its position misses the
cache and fetches successfully. -/
theorem isPlaceholder_preOf (store : List StoredDoc) (http : Nat → HttpResult)
    (carbon : Nat → CarbonResult) (now : Nat) (barcodes : List String) (i : Nat) :
    isPlaceholder (preOf store http carbon now barcodes i) =
      fetchSuccessAt store http carbon now barcodes i := by
  rw [preOf, rawEntry, fetchSuccessAt, cacheHitAt]
  cases hg : get_product store (barcodes.getD i "") with
  | some doc => simp [isPlaceholder]
  | none =>
    cases hf : fetch_from_off (barcodes.getD i "") (http i) (carbon i) now with
    | error e => simp [isPlaceholder, hf]
    | ok o => cases o <;> simp [isPlaceholder, hf]

/-- Counting success records in the finalized results: every cache hit and
every placeholder becomes a success record (each placeholder's barcode is
found on re-read because the bulk upsert put it there), error entries do
not. -/
theorem countP_success_results (store : List StoredDoc) (freshBase : Nat)
    (pre : List PreEntry) :
    (pre.map (finalizeEntry (storeAfterOf store freshBase pre))).countP isProductEntry =
      pre.countP isCachedDoc + pre.countP isPlaceholder := by
  rw [List.countP_map, ← countP_cached_add_placeholder]
  apply List.countP_congr
  intro e he
  cases e with
  | cachedDoc doc =>
    simp [Function.comp, finalizeEntry, isProductEntry, isCachedDoc, isPlaceholder]
  | errEntry b =>
    simp [Function.comp, finalizeEntry, isProductEntry, isCachedDoc, isPlaceholder]
  | placeholder d =>
    have hmem : d ∈ newProductsOf pre :=
      List.mem_filterMap.mpr ⟨PreEntry.placeholder d, he, rfl⟩
    have hne : (newProductsOf pre).isEmpty = false := by
      cases hnp : newProductsOf pre with
      | nil => rw [hnp] at hmem; cases hmem
      | cons _ _ => rfl
    have hs : (get_product (storeAfterOf store freshBase pre) d.barcode).isSome = true := by
      rw [storeAfterOf, hne]
      simp only [Bool.false_eq_true, if_false]
      exact get_product_bulkUpsert_mem _ store freshBase d hmem
    cases hg : get_product (storeAfterOf store freshBase pre) d.barcode with
    | none => rw [hg] at hs; cases hs
    | some doc =>
      simp [Function.comp, finalizeEntry, hg, isProductEntry, isCachedDoc, isPlaceholder]

/-! ### Claim C10 -/

/-- C10: an empty barcodes list yields zeroed metadata, an empty results
list, an unchanged store, and no bulk upsert issued at all. -/
theorem c10_empty_batch (store : List StoredDoc) (http : Nat → HttpResult)
    (carbon : Nat → CarbonResult) (now : Nat) (freshBase : Nat) :
    batch_lookup store http carbon now [] [] freshBase =
      Except.ok
        { requested := 0, fetched := 0, cached := 0, results := [],
          storeAfter := store, bulkIssued := false } := rfl

/-! ### Claim C1 -/

/-- C1: the claim states result position `i` holds the resolution of input
position `i` regardless of completion order. The shared `results` list is
appended to by each task as it completes, so entries come out in completion
order: for the batch ["A", "B"] with "B" cached (its task finishes after
one cache read) and "A" fetched (its task also waits on the upstream call),
the completion order B-then-A puts B's record at result position 0, which
the claim requires to hold A's resolution. The length of the results does
equal the length of the input. -/
theorem c1_results_follow_completion_order :
    (batch_lookup [{ id := 7, data := dB }]
        (fun _ => HttpResult.resp 200 (JsonBody.parsed (some 1) (some pA)))
        (fun _ => CarbonResult.netErr) 0 ["A", "B"] [1, 0] 1).map
      (fun out => (out.requested, out.results.map entryBarcodeOf)) =
      Except.ok (2, [some "B", some "A"]) := rfl

/-! ### Claim C3 -/

/-- C3: the claim states that a raised error in one item's fetch is captured
as that item's error descriptor and never prevents other items from
resolving. In the code `process_one` catches nothing: with batch
["A", "B"], "B" cached, and "A"'s fetch raising a network error, the whole
`asyncio.gather` — and with it the whole request — fails, and the perfectly
resolvable "B" produces no output entry at all. -/
theorem c3_counterexample :
    batch_lookup [{ id := 7, data := dB }] (fun _ => HttpResult.netErr)
      (fun _ => CarbonResult.netErr) 0 ["A", "B"] [0, 1] 1 =
      Except.error FetchErr.requestError := rfl

/-- C3 amended: a not-found fetch outcome (upstream answers, but without the
product) is captured as that item's `{barcode, error}` descriptor and does
not prevent any other item from producing its entry: as long as no item's
fetch raises, the batch returns one entry per input position, and every
cache-missing item whose fetch returned not-found contributes exactly its
error descriptor. A raised fetch exception, by contrast, aborts the whole
batch (see the counterexample). -/
theorem c3_amended (store : List StoredDoc) (http : Nat → HttpResult)
    (carbon : Nat → CarbonResult) (now : Nat) (barcodes : List String)
    (order : List Nat) (freshBase : Nat)
    (horder : order.Perm (List.range barcodes.length))
    (hnoraise : ∀ i ∈ order,
      isOkEntry (rawEntry store http carbon now barcodes i) = true) :
    ∃ out, batch_lookup store http carbon now barcodes order freshBase = Except.ok out ∧
      out.results.length = barcodes.length ∧
      out.results = (order.map (preOf store http carbon now barcodes)).map
        (finalizeEntry out.storeAfter) ∧
      ∀ i ∈ order, get_product store (barcodes.getD i "") = none →
        fetch_from_off (barcodes.getD i "") (http i) (carbon i) now = Except.ok none →
        preOf store http carbon now barcodes i = PreEntry.errEntry (barcodes.getD i "") := by
  have hcol := collectEntries_map_ok store http carbon now barcodes order hnoraise
  refine ⟨{ requested := barcodes.length,
            fetched := (order.map (preOf store http carbon now barcodes)).countP isPlaceholder,
            cached := (order.map (preOf store http carbon now barcodes)).countP isCachedDoc,
            results := (order.map (preOf store http carbon now barcodes)).map
              (finalizeEntry (storeAfterOf store freshBase
                (order.map (preOf store http carbon now barcodes)))),
            storeAfter := storeAfterOf store freshBase
              (order.map (preOf store http carbon now barcodes)),
            bulkIssued := !(newProductsOf
              (order.map (preOf store http carbon now barcodes))).isEmpty },
    ?_, ?_, ?_, ?_⟩
  · rw [batch_lookup, hcol]
  · simp only [List.length_map]
    rw [horder.length_eq, List.length_range]
  · rfl
  · intro i _ hg hf
    rw [preOf, rawEntry, hg, hf]

/-- Witness for C3's amended theorem: "A" is not found upstream, "B" is
cached; both items still produce their entries. -/
theorem c3_amended_witness :
    ∃ out, batch_lookup [{ id := 7, data := dB }]
        (fun _ => HttpResult.resp 200 (JsonBody.parsed (some 0) none))
        (fun _ => CarbonResult.netErr) 0 ["A", "B"] [1, 0] 1 = Except.ok out ∧
      out.results.length = (["A", "B"] : List String).length ∧
      out.results = (([1, 0] : List Nat).map (preOf [{ id := 7, data := dB }]
          (fun _ => HttpResult.resp 200 (JsonBody.parsed (some 0) none))
          (fun _ => CarbonResult.netErr) 0 ["A", "B"])).map
        (finalizeEntry out.storeAfter) ∧
      ∀ i ∈ ([1, 0] : List Nat),
        get_product [{ id := 7, data := dB }] ((["A", "B"] : List String).getD i "") = none →
        fetch_from_off ((["A", "B"] : List String).getD i "")
          (HttpResult.resp 200 (JsonBody.parsed (some 0) none)) CarbonResult.netErr 0 =
          Except.ok none →
        preOf [{ id := 7, data := dB }]
          (fun _ => HttpResult.resp 200 (JsonBody.parsed (some 0) none))
          (fun _ => CarbonResult.netErr) 0 ["A", "B"] i =
          PreEntry.errEntry ((["A", "B"] : List String).getD i "") :=
  c3_amended [{ id := 7, data := dB }]
    (fun _ => HttpResult.resp 200 (JsonBody.parsed (some 0) none))
    (fun _ => CarbonResult.netErr) 0 ["A", "B"] [1, 0] 1 (by decide)
    (by intro i hi; fin_cases hi <;> rfl)

/-! ### Claim C4 -/

/-- C4: whenever a batch returns (no task raised), `requested` is the input
length, `cached` counts the positions resolved from the store without a
fetch, `fetched` counts the positions whose upstream fetch completed
successfully, and `fetched + cached` is exactly the number of success
records among the results — items whose fetch returned not-found count in
neither `fetched` nor `cached`. -/
theorem c4_batch_metadata (store : List StoredDoc) (http : Nat → HttpResult)
    (carbon : Nat → CarbonResult) (now : Nat) (barcodes : List String)
    (order : List Nat) (freshBase : Nat) (out : BatchOutcome)
    (horder : order.Perm (List.range barcodes.length))
    (hok : batch_lookup store http carbon now barcodes order freshBase = Except.ok out) :
    out.requested = barcodes.length ∧
    out.cached = (List.range barcodes.length).countP (cacheHitAt store barcodes) ∧
    out.fetched = (List.range barcodes.length).countP
      (fetchSuccessAt store http carbon now barcodes) ∧
    out.fetched + out.cached = out.results.countP isProductEntry := by
  rw [batch_lookup] at hok
  cases hcol : collectEntries (order.map (rawEntry store http carbon now barcodes)) with
  | error e => rw [hcol] at hok; cases hok
  | ok pre =>
    rw [hcol] at hok
    have hpre : pre = order.map (preOf store http carbon now barcodes) :=
      map_ok_preOf store http carbon now barcodes order pre (collectEntries_ok _ _ hcol)
    injection hok with hok
    subst hok
    refine ⟨rfl, ?_, ?_, ?_⟩
    · show pre.countP isCachedDoc = _
      rw [hpre, List.countP_map]
      have hfun : (isCachedDoc ∘ preOf store http carbon now barcodes) =
          cacheHitAt store barcodes := by
        funext i
        exact isCachedDoc_preOf store http carbon now barcodes i
      rw [hfun]
      exact List.Perm.countP_eq _ horder
    · show pre.countP isPlaceholder = _
      rw [hpre, List.countP_map]
      have hfun : (isPlaceholder ∘ preOf store http carbon now barcodes) =
          fetchSuccessAt store http carbon now barcodes := by
        funext i
        exact isPlaceholder_preOf store http carbon now barcodes i
      rw [hfun]
      exact List.Perm.countP_eq _ horder
    · show pre.countP isPlaceholder + pre.countP isCachedDoc =
        (pre.map (finalizeEntry (storeAfterOf store freshBase pre))).countP isProductEntry
      rw [countP_success_results]
      omega

/-- Witness for C4 at a concrete one-item batch that fetches "A". -/
theorem c4_batch_metadata_witness :
    ({ requested := 1, fetched := 1, cached := 0,
       results := [BatchEntry.product
         { id := 1, data := buildRecord "A" pA CarbonResult.netErr 0 }],
       storeAfter := [{ id := 1, data := buildRecord "A" pA CarbonResult.netErr 0 }],
       bulkIssued := true } : BatchOutcome).requested = (["A"] : List String).length ∧
    ({ requested := 1, fetched := 1, cached := 0,
       results := [BatchEntry.product
         { id := 1, data := buildRecord "A" pA CarbonResult.netErr 0 }],
       storeAfter := [{ id := 1, data := buildRecord "A" pA CarbonResult.netErr 0 }],
       bulkIssued := true } : BatchOutcome).cached =
      (List.range 1).countP (cacheHitAt [] ["A"]) ∧
    ({ requested := 1, fetched := 1, cached := 0,
       results := [BatchEntry.product
         { id := 1, data := buildRecord "A" pA CarbonResult.netErr 0 }],
       storeAfter := [{ id := 1, data := buildRecord "A" pA CarbonResult.netErr 0 }],
       bulkIssued := true } : BatchOutcome).fetched =
      (List.range 1).countP (fetchSuccessAt []
        (fun _ => HttpResult.resp 200 (JsonBody.parsed (some 1) (some pA)))
        (fun _ => CarbonResult.netErr) 0 ["A"]) ∧
    ({ requested := 1, fetched := 1, cached := 0,
       results := [BatchEntry.product
         { id := 1, data := buildRecord "A" pA CarbonResult.netErr 0 }],
       storeAfter := [{ id := 1, data := buildRecord "A" pA CarbonResult.netErr 0 }],
       bulkIssued := true } : BatchOutcome).fetched +
      ({ requested := 1, fetched := 1, cached := 0,
         results := [BatchEntry.product
           { id := 1, data := buildRecord "A" pA CarbonResult.netErr 0 }],
         storeAfter := [{ id := 1, data := buildRecord "A" pA CarbonResult.netErr 0 }],
         bulkIssued := true } : BatchOutcome).cached =
      ({ requested := 1, fetched := 1, cached := 0,
         results := [BatchEntry.product
           { id := 1, data := buildRecord "A" pA CarbonResult.netErr 0 }],
         storeAfter := [{ id := 1, data := buildRecord "A" pA CarbonResult.netErr 0 }],
         bulkIssued := true } : BatchOutcome).results.countP isProductEntry :=
  c4_batch_metadata []
    (fun _ => HttpResult.resp 200 (JsonBody.parsed (some 1) (some pA)))
    (fun _ => CarbonResult.netErr) 0 ["A"] [0] 1 _ (by decide) rfl

end Scanner
